import Mathlib

/-!
A shallow embedding of the byte lexer in `src/src/lexer.rs` and proofs
about it.  Bytes are modelled as `Nat`; the borrowed slices of the Rust
code become `List Nat` with `take`/`drop`; Rust panics (out-of-bounds
slicing, the unreachable arm of the symbol scanner) are modelled as
`Except.error` values carrying the panic message.
-/

/-- The token-kind enumeration (`enum TokenType`). -/
inductive TokenType where
  | Number
  | Space
  | Newline
  | Comma
  | Comment
  | SimpleString
  | String
  | Dot
  | DotDot
  | Dollar
  | Variable
  | Pipe
  | PipePipe
  | Colon
  | Semicolon
  | Plus
  | PlusPlus
  | Dash
  | Exclamation
  | Asterisk
  | AsteriskAsterisk
  | ForwardSlash
  | ForwardSlashForwardSlash
  | Equals
  | EqualsEquals
  | EqualsTilde
  | ExclamationTilde
  | ExclamationEquals
  | LParen
  | LSquare
  | LCurly
  | LessThan
  | LessThanEqual
  | RParen
  | RSquare
  | RCurly
  | GreaterThan
  | GreaterThanEqual
  | Ampersand
  | AmpersandAmpersand
  | Bareword
deriving DecidableEq, Repr

/-- The token record (`struct Token`): kind, the referenced bytes, and the
absolute byte span. -/
structure Token where
  token_type : TokenType
  contents : List Nat
  span_start : Nat
  span_end : Nat
deriving DecidableEq, Repr

/-- The lexer state (`struct Lexer`): the unconsumed remainder of the
source, the absolute offset of its first byte, and the mode flag. -/
structure Lexer where
  source : List Nat
  span_offset : Nat
  newline_is_space : Bool
deriving DecidableEq, Repr

/-- `u8::is_ascii_digit`. -/
def isAsciiDigit (b : Nat) : Bool :=
  48 ≤ b && b ≤ 57

/-- `u8::is_ascii_whitespace`: space, tab, line feed, form feed,
carriage return. -/
def isAsciiWhitespace (b : Nat) : Bool :=
  b = 32 || b = 9 || b = 10 || b = 12 || b = 13

/-- `fn is_symbol`: membership in the fixed symbol byte set
`+ - * / . , ( [ \x7b < ) ] \x7d > : ; = $ | ! ~ &`. -/
def is_symbol (b : Nat) : Bool :=
  ([43, 45, 42, 47, 46, 44, 40, 91, 123, 60, 41, 93, 125, 62, 58, 59,
    61, 36, 124, 33, 126, 38] : List Nat).contains b

/-- The scan loop of `lex_quoted_string`, run over the bytes after the
opening quote: returns how far `token_offset` advances past 1.  In the
escaped state the next byte is skipped; an unescaped `"` (34) is consumed
and stops the scan; a `\` (92) sets the escaped state. -/
def scanQuotedString : List Nat → Bool → Nat
  | [], _ => 0
  | b :: rest, is_escaped =>
    if is_escaped then scanQuotedString rest false + 1
    else if b = 92 then scanQuotedString rest true + 1
    else if b = 34 then 1
    else scanQuotedString rest false + 1

/-- The scan loop of `lex_single_quoted_string` / `lex_quoted_bareword`:
advance until the closing byte `c` is consumed (inclusive), or the end of
the input. -/
def scanUntil (c : Nat) : List Nat → Nat
  | [] => 0
  | b :: rest => if b = c then 1 else scanUntil c rest + 1

/-- The counting loops of `lex_number`, `lex_space`, `lex_variable`,
`lex_comment` and `lex_bareword`: length of the maximal prefix whose
bytes satisfy `p`. -/
def countWhile (p : Nat → Bool) : List Nat → Nat
  | [] => 0
  | b :: rest => if p b then countWhile p rest + 1 else 0

/-- `Lexer::lex_quoted_string`. -/
def lex_quoted_string (l : Lexer) : Token × Lexer :=
  let span_start := l.span_offset
  let token_offset := 1 + scanQuotedString (l.source.drop 1) false
  let span_offset := l.span_offset + token_offset
  (⟨TokenType.String, l.source.take token_offset, span_start, span_offset⟩,
   ⟨l.source.drop token_offset, span_offset, l.newline_is_space⟩)

/-- `Lexer::lex_single_quoted_string`. -/
def lex_single_quoted_string (l : Lexer) : Token × Lexer :=
  let span_start := l.span_offset
  let token_offset := 1 + scanUntil 39 (l.source.drop 1)
  let span_offset := l.span_offset + token_offset
  (⟨TokenType.SimpleString, l.source.take token_offset, span_start, span_offset⟩,
   ⟨l.source.drop token_offset, span_offset, l.newline_is_space⟩)

/-- `Lexer::lex_quoted_bareword`.  The Rust code slices
`source[1..(token_offset - 1)]`; when `token_offset = 1` (a lone backtick
remainder) that slice is `[1..0]`, which panics, modelled as an error.
The cursor offset advances by `token_offset - 1` although `token_offset`
bytes are consumed, and the span starts one past the cursor. -/
def lex_quoted_bareword (l : Lexer) : Except String (Token × Lexer) :=
  let span_start := l.span_offset
  let token_offset := 1 + scanUntil 96 (l.source.drop 1)
  if token_offset < 2 then
    .error "slice index starts at 1 but ends at 0"
  else
    let span_offset := l.span_offset + (token_offset - 1)
    .ok (⟨TokenType.Bareword, (l.source.drop 1).take (token_offset - 1 - 1),
          span_start + 1, span_offset⟩,
         ⟨l.source.drop token_offset, span_offset, l.newline_is_space⟩)

/-- `Lexer::lex_number`. -/
def lex_number (l : Lexer) : Token × Lexer :=
  let span_start := l.span_offset
  let token_offset := countWhile isAsciiDigit l.source
  let span_offset := l.span_offset + token_offset
  (⟨TokenType.Number, l.source.take token_offset, span_start, span_offset⟩,
   ⟨l.source.drop token_offset, span_offset, l.newline_is_space⟩)

/-- `Lexer::lex_space`: the active whitespace set depends on the
`newline_is_space` flag. -/
def lex_space (l : Lexer) : Token × Lexer :=
  let span_start := l.span_offset
  let whitespace : List Nat :=
    if l.newline_is_space then [32, 9, 13, 10] else [32, 9, 13]
  let token_offset := countWhile (fun b => whitespace.contains b) l.source
  let span_offset := l.span_offset + token_offset
  (⟨TokenType.Space, l.source.take token_offset, span_start, span_offset⟩,
   ⟨l.source.drop token_offset, span_offset, l.newline_is_space⟩)

/-- `Lexer::lex_newline`: consumes exactly one byte. -/
def lex_newline (l : Lexer) : Token × Lexer :=
  (⟨TokenType.Newline, l.source.take 1, l.span_offset, l.span_offset + 1⟩,
   ⟨l.source.drop 1, l.span_offset + 1, l.newline_is_space⟩)

/-- `Lexer::lex_variable`.  Note the cursor offset is advanced by
`1 + token_offset` while only `token_offset` bytes are consumed (the
Rust code does `span_offset += 1` and then `span_offset += token_offset`
with `token_offset` already counting the `$` byte). -/
def lex_variable (l : Lexer) : Token × Lexer :=
  let span_start := l.span_offset
  let token_offset :=
    1 + countWhile (fun b => !(isAsciiWhitespace b || is_symbol b)) (l.source.drop 1)
  let span_offset := l.span_offset + 1 + token_offset
  (⟨TokenType.Variable, l.source.take token_offset, span_start, span_offset⟩,
   ⟨l.source.drop token_offset, span_offset, l.newline_is_space⟩)

/-- `Lexer::lex_comment`: same double advance of the offset as
`lex_variable`. -/
def lex_comment (l : Lexer) : Token × Lexer :=
  let span_start := l.span_offset
  let token_offset := 1 + countWhile (fun b => !(b = 10)) (l.source.drop 1)
  let span_offset := l.span_offset + 1 + token_offset
  (⟨TokenType.Comment, l.source.take token_offset, span_start, span_offset⟩,
   ⟨l.source.drop token_offset, span_offset, l.newline_is_space⟩)

/-- The `match self.source[0]` table of `Lexer::lex_symbol`, with each
Rust arm rendered as its token kind and byte width (1 or 2): the one-byte
lookahead `sec = source[1]` (when present) decides between a two-character
operator and its one-character prefix.  The catch-all arm is the Rust
panic, modelled as an error. -/
def symbol_kind (b : Nat) (sec : Option Nat) : Except String (TokenType × Nat) :=
  if b = 40 then .ok (TokenType.LParen, 1)
  else if b = 91 then .ok (TokenType.LSquare, 1)
  else if b = 123 then .ok (TokenType.LCurly, 1)
  else if b = 60 then
    if sec = some 61 then .ok (TokenType.LessThanEqual, 2)
    else .ok (TokenType.LessThan, 1)
  else if b = 41 then .ok (TokenType.RParen, 1)
  else if b = 93 then .ok (TokenType.RSquare, 1)
  else if b = 125 then .ok (TokenType.RCurly, 1)
  else if b = 62 then
    if sec = some 61 then .ok (TokenType.GreaterThanEqual, 2)
    else .ok (TokenType.GreaterThan, 1)
  else if b = 43 then
    if sec = some 43 then .ok (TokenType.PlusPlus, 2)
    else .ok (TokenType.Plus, 1)
  else if b = 45 then .ok (TokenType.Dash, 1)
  else if b = 42 then
    if sec = some 42 then .ok (TokenType.AsteriskAsterisk, 2)
    else .ok (TokenType.Asterisk, 1)
  else if b = 47 then
    if sec = some 47 then .ok (TokenType.ForwardSlashForwardSlash, 2)
    else .ok (TokenType.ForwardSlash, 1)
  else if b = 61 then
    if sec = some 61 then .ok (TokenType.EqualsEquals, 2)
    else if sec = some 126 then .ok (TokenType.EqualsTilde, 2)
    else .ok (TokenType.Equals, 1)
  else if b = 58 then .ok (TokenType.Colon, 1)
  else if b = 59 then .ok (TokenType.Semicolon, 1)
  else if b = 46 then
    if sec = some 46 then .ok (TokenType.DotDot, 2)
    else .ok (TokenType.Dot, 1)
  else if b = 33 then
    if sec = some 61 then .ok (TokenType.ExclamationEquals, 2)
    else if sec = some 126 then .ok (TokenType.ExclamationTilde, 2)
    else .ok (TokenType.Exclamation, 1)
  else if b = 36 then .ok (TokenType.Dollar, 1)
  else if b = 124 then
    if sec = some 124 then .ok (TokenType.PipePipe, 2)
    else .ok (TokenType.Pipe, 1)
  else if b = 38 then
    if sec = some 38 then .ok (TokenType.AmpersandAmpersand, 2)
    else .ok (TokenType.Ampersand, 1)
  else if b = 44 then .ok (TokenType.Comma, 1)
  else .error "Internal compiler error: symbol character mismatched in lexer"

/-- The token built by a `Lexer::lex_symbol` arm: contents are the first
`w` bytes (`&source[..w]`) and the span is `[span_start, span_start + w)`.
On an empty slice the Rust code panics indexing `source[0]`, modelled as
an error. -/
def symbol_token (source : List Nat) (span_start : Nat) : Except String Token :=
  match source with
  | [] => .error "index out of bounds"
  | b :: rest =>
    match symbol_kind b rest.head? with
    | .error e => .error e
    | .ok (tt, w) => .ok ⟨tt, source.take w, span_start, span_start + w⟩

/-- `Lexer::lex_symbol`: run the table, then set
`span_offset = result.span_end` and drop
`result.span_end - span_start` bytes. -/
def lex_symbol (l : Lexer) : Except String (Token × Lexer) :=
  match symbol_token l.source l.span_offset with
  | .error e => .error e
  | .ok result =>
    .ok (result,
         ⟨l.source.drop (result.span_end - l.span_offset), result.span_end,
          l.newline_is_space⟩)

/-- `Lexer::lex_bareword`: consume until ASCII whitespace or one of
`\x7b \x7d ) ( [ ] ; : ,`. -/
def lex_bareword (l : Lexer) : Token × Lexer :=
  let span_start := l.span_offset
  let token_offset :=
    countWhile
      (fun b => !(isAsciiWhitespace b || b = 123 || b = 125 || b = 41 || b = 40 ||
                  b = 91 || b = 93 || b = 59 || b = 58 || b = 44))
      l.source
  let span_offset := l.span_offset + token_offset
  (⟨TokenType.Bareword, l.source.take token_offset, span_start, span_offset⟩,
   ⟨l.source.drop token_offset, span_offset, l.newline_is_space⟩)

/-- `Lexer::next`: the dispatcher.  Returns `none` on an empty remainder,
otherwise routes on the first byte, in the source's priority order. -/
def next (l : Lexer) : Except String (Option (Token × Lexer)) :=
  match l.source with
  | [] => .ok none
  | b :: _ =>
    if isAsciiDigit b then .ok (some (lex_number l))
    else if b = 34 then .ok (some (lex_quoted_string l))
    else if b = 39 then .ok (some (lex_single_quoted_string l))
    else if b = 96 then (lex_quoted_bareword l).map some
    else if b = 32 ∨ b = 9 ∨ b = 13 ∨ (l.newline_is_space ∧ b = 10) then
      .ok (some (lex_space l))
    else if b = 36 then .ok (some (lex_variable l))
    else if is_symbol b then (lex_symbol l).map some
    else if b = 10 then .ok (some (lex_newline l))
    else if b = 35 then .ok (some (lex_comment l))
    else .ok (some (lex_bareword l))

/-- `Lexer::peek`: snapshot `span_offset` and `source`, run `next`,
restore them (the flag is whatever `next` left, which is unchanged). -/
def peek (l : Lexer) : Except String (Option Token × Lexer) :=
  match next l with
  | .error e => .error e
  | .ok none => .ok (none, ⟨l.source, l.span_offset, l.newline_is_space⟩)
  | .ok (some (t, l₂)) => .ok (some t, ⟨l.source, l.span_offset, l₂.newline_is_space⟩)

/-- Outcome of driving the lexer to the sentinel with bounded fuel. -/
inductive RunResult where
  | panicked (msg : String)
  | outOfFuel
  | done (toks : List Token) (final : Lexer)
deriving DecidableEq, Repr

/-- Repeatedly call `next` until the sentinel, collecting the tokens in
production order. -/
def run : Nat → Lexer → RunResult
  | 0, _ => .outOfFuel
  | fuel + 1, l =>
    match next l with
    | .error e => .panicked e
    | .ok none => .done [] l
    | .ok (some (t, l₂)) =>
      match run fuel l₂ with
      | .done ts lf => .done (t :: ts) lf
      | r => r

theorem countWhile_le (p : Nat → Bool) (xs : List Nat) :
    countWhile p xs ≤ xs.length := by
  induction xs with
  | nil => simp [countWhile]
  | cons b rest ih =>
    simp only [countWhile, List.length_cons]
    split <;> omega

theorem scanUntil_le (c : Nat) (xs : List Nat) :
    scanUntil c xs ≤ xs.length := by
  induction xs with
  | nil => simp [scanUntil]
  | cons b rest ih =>
    simp only [scanUntil, List.length_cons]
    split <;> omega

theorem scanQuotedString_le (xs : List Nat) (e : Bool) :
    scanQuotedString xs e ≤ xs.length := by
  induction xs generalizing e with
  | nil => simp [scanQuotedString]
  | cons b rest ih =>
    have h1 := ih false
    have h2 := ih true
    simp only [scanQuotedString, List.length_cons]
    split
    · omega
    · split
      · omega
      · split <;> omega

/-- Case sweep over the symbol table for a byte in the symbol set: on
success some `k` with `1 ≤ k ≤ 2` bytes are described, the contents are
exactly the first `k` bytes, and the span is `[span_start, span_start + k)`. -/
theorem symbol_token_anatomy (b : Nat) (rest : List Nat) (off : Nat) (t : Token)
    (hsym : is_symbol b = true)
    (h : symbol_token (b :: rest) off = .ok t) :
    ∃ k, 1 ≤ k ∧ k ≤ (b :: rest).length ∧ t.contents = (b :: rest).take k ∧
      t.span_start = off ∧ t.span_end = off + k := by
  have hb : b ∈ ([43, 45, 42, 47, 46, 44, 40, 91, 123, 60, 41, 93, 125, 62,
      58, 59, 61, 36, 124, 33, 126, 38] : List Nat) := by
    simpa [is_symbol] using hsym
  fin_cases hb <;>
    cases rest <;>
    simp only [symbol_token, symbol_kind, List.head?_nil, List.head?_cons,
      Option.some.injEq, reduceCtorEq, reduceIte, Nat.reduceEqDiff] at h <;>
    try split_ifs at h
  all_goals simp only [reduceCtorEq, Except.ok.injEq] at h
  all_goals subst h
  all_goals first
    | exact ⟨1, by omega, by simp only [List.length_cons]; omega, rfl, rfl, rfl⟩
    | exact ⟨2, by omega, by simp only [List.length_cons]; omega, rfl, rfl, rfl⟩

/-- Everything the symbol scanner guarantees on success: some `k` bytes
are consumed, the contents are exactly those bytes, and the span and the
cursor advance in lockstep. -/
theorem lex_symbol_anatomy (b : Nat) (rest : List Nat) (off : Nat) (flag : Bool)
    (t : Token) (l₂ : Lexer) (hsym : is_symbol b = true)
    (h : lex_symbol ⟨b :: rest, off, flag⟩ = .ok (t, l₂)) :
    l₂.newline_is_space = flag ∧
    ∃ k, 1 ≤ k ∧ k ≤ (b :: rest).length ∧ t.contents = (b :: rest).take k ∧
      t.span_start = off ∧ t.span_end = off + k ∧
      l₂.source = (b :: rest).drop k ∧ l₂.span_offset = off + k := by
  unfold lex_symbol at h
  cases heq : symbol_token (⟨b :: rest, off, flag⟩ : Lexer).source
      (⟨b :: rest, off, flag⟩ : Lexer).span_offset with
  | error e => rw [heq] at h; exact absurd h (by simp)
  | ok tok =>
    rw [heq] at h
    simp only [Except.ok.injEq, Prod.mk.injEq] at h
    obtain ⟨rfl, rfl⟩ := h
    obtain ⟨k, hk1, hk2, hc, hstart, hend⟩ :=
      symbol_token_anatomy b rest off tok hsym heq
    refine ⟨rfl, k, hk1, hk2, hc, hstart, hend, ?_, hend⟩
    show (b :: rest).drop (tok.span_end - off) = (b :: rest).drop k
    rw [hend]
    congr 1
    omega

/-- The master anatomy of one `next` step that returns a token: the flag
is untouched, some `k ≤ length` bytes are consumed, and the token's
fields relate to the prior state per scanner family: the quoted-Bareword
case (head byte 96) loses one byte of cursor offset and excludes the
delimiters from contents; the Variable (36) and Comment (35) cases gain
one extra byte of cursor offset; every other family keeps span, contents
and cursor in lockstep. -/
theorem next_anatomy (src : List Nat) (off : Nat) (flag : Bool) (t : Token) (l₂ : Lexer)
    (h : next ⟨src, off, flag⟩ = .ok (some (t, l₂))) :
    l₂.newline_is_space = flag ∧
    ∃ k, k ≤ src.length ∧ l₂.source = src.drop k ∧
      t.span_end = l₂.span_offset ∧
      ((src.head? = some 96 ∧ 2 ≤ k ∧
          t.contents = (src.drop 1).take (k - 2) ∧
          t.span_start = off + 1 ∧
          l₂.span_offset + 1 = off + k) ∨
       ((src.head? = some 36 ∨ src.head? = some 35) ∧
          t.contents = src.take k ∧ t.span_start = off ∧
          l₂.span_offset = off + k + 1) ∨
       (src.head? ≠ some 96 ∧ src.head? ≠ some 36 ∧ src.head? ≠ some 35 ∧
          t.contents = src.take k ∧ t.span_start = off ∧
          l₂.span_offset = off + k)) := by
  cases src with
  | nil => simp [next] at h
  | cons b rest =>
    simp only [next] at h
    split_ifs at h with hd h34 h39 h96 hsp h36 hsym h10 h35
    · -- Number
      simp only [lex_number, Except.ok.injEq, Option.some.injEq, Prod.mk.injEq] at h
      obtain ⟨rfl, rfl⟩ := h
      refine ⟨rfl, countWhile isAsciiDigit (b :: rest), countWhile_le _ _, rfl, rfl,
        Or.inr (Or.inr ⟨?_, ?_, ?_, rfl, rfl, rfl⟩)⟩
      all_goals
        simp only [ne_eq, List.head?_cons, Option.some.injEq, isAsciiDigit,
          Bool.and_eq_true, decide_eq_true_eq] at hd ⊢
      all_goals omega
    · -- String
      subst h34
      simp only [lex_quoted_string, Except.ok.injEq, Option.some.injEq, Prod.mk.injEq] at h
      obtain ⟨rfl, rfl⟩ := h
      refine ⟨rfl, 1 + scanQuotedString ((34 :: rest).drop 1) false, ?_, rfl, rfl,
        Or.inr (Or.inr ⟨by simp, by simp, by simp, rfl, rfl, rfl⟩)⟩
      have hle := scanQuotedString_le ((34 :: rest).drop 1) false
      simp only [List.drop_succ_cons, List.drop_zero, List.length_cons] at hle ⊢
      omega
    · -- SimpleString
      subst h39
      simp only [lex_single_quoted_string, Except.ok.injEq, Option.some.injEq,
        Prod.mk.injEq] at h
      obtain ⟨rfl, rfl⟩ := h
      refine ⟨rfl, 1 + scanUntil 39 ((39 :: rest).drop 1), ?_, rfl, rfl,
        Or.inr (Or.inr ⟨by simp, by simp, by simp, rfl, rfl, rfl⟩)⟩
      have hle := scanUntil_le 39 ((39 :: rest).drop 1)
      simp only [List.drop_succ_cons, List.drop_zero, List.length_cons] at hle ⊢
      omega
    · -- quoted Bareword
      subst h96
      simp only [lex_quoted_bareword] at h
      split_ifs at h with hlt
      · simp [Except.map] at h
      · simp only [Except.map, Except.ok.injEq, Option.some.injEq, Prod.mk.injEq] at h
        obtain ⟨rfl, rfl⟩ := h
        refine ⟨rfl, 1 + scanUntil 96 ((96 :: rest).drop 1), ?_, rfl, rfl,
          Or.inl ⟨by simp, by omega, ?_, rfl, ?_⟩⟩
        · have hle := scanUntil_le 96 ((96 :: rest).drop 1)
          simp only [List.drop_succ_cons, List.drop_zero, List.length_cons] at hle ⊢
          omega
        · show ((96 :: rest).drop 1).take (1 + scanUntil 96 ((96 :: rest).drop 1) - 1 - 1) =
            ((96 :: rest).drop 1).take (1 + scanUntil 96 ((96 :: rest).drop 1) - 2)
          rfl
        · show off + (1 + scanUntil 96 ((96 :: rest).drop 1) - 1) + 1 =
            off + (1 + scanUntil 96 ((96 :: rest).drop 1))
          omega
    · -- Space
      simp only [lex_space, Except.ok.injEq, Option.some.injEq, Prod.mk.injEq] at h
      obtain ⟨rfl, rfl⟩ := h
      refine ⟨rfl, _, countWhile_le _ _, rfl, rfl,
        Or.inr (Or.inr ⟨?_, ?_, ?_, rfl, rfl, rfl⟩)⟩
      all_goals simp only [ne_eq, List.head?_cons, Option.some.injEq]
      all_goals rcases hsp with rfl | rfl | rfl | ⟨_, rfl⟩ <;> omega
    · -- Variable
      subst h36
      simp only [lex_variable, Except.ok.injEq, Option.some.injEq, Prod.mk.injEq] at h
      obtain ⟨rfl, rfl⟩ := h
      refine ⟨rfl, 1 + countWhile (fun c => !(isAsciiWhitespace c || is_symbol c))
          ((36 :: rest).drop 1), ?_, rfl, rfl,
        Or.inr (Or.inl ⟨Or.inl (by simp), rfl, rfl, ?_⟩)⟩
      · have hle := countWhile_le (fun c => !(isAsciiWhitespace c || is_symbol c))
          ((36 :: rest).drop 1)
        simp only [List.drop_succ_cons, List.drop_zero, List.length_cons] at hle ⊢
        omega
      · show off + 1 + (1 + countWhile (fun c => !(isAsciiWhitespace c || is_symbol c))
            ((36 :: rest).drop 1)) =
          off + (1 + countWhile (fun c => !(isAsciiWhitespace c || is_symbol c))
            ((36 :: rest).drop 1)) + 1
        omega
    · -- Symbol
      cases hls : lex_symbol ⟨b :: rest, off, flag⟩ with
      | error e => rw [hls] at h; simp [Except.map] at h
      | ok p =>
        rw [hls] at h
        simp only [Except.map, Except.ok.injEq, Option.some.injEq] at h
        subst h
        obtain ⟨hflag, k, hk1, hk2, hc, hstart, hend, hsrc, hoff⟩ :=
          lex_symbol_anatomy b rest off flag t l₂ hsym hls
        have hb35 : b ≠ 35 := by
          intro e
          subst e
          simp [is_symbol] at hsym
        refine ⟨hflag, k, hk2, hsrc, ?_, Or.inr (Or.inr ⟨?_, ?_, ?_, hc, hstart, hoff⟩)⟩
        · rw [hend, hoff]
        all_goals simp only [ne_eq, List.head?_cons, Option.some.injEq]
        · exact h96
        · exact h36
        · exact hb35
    · -- Newline
      subst h10
      simp only [lex_newline, Except.ok.injEq, Option.some.injEq, Prod.mk.injEq] at h
      obtain ⟨rfl, rfl⟩ := h
      exact ⟨rfl, 1, by simp, rfl, rfl,
        Or.inr (Or.inr ⟨by simp, by simp, by simp, rfl, rfl, rfl⟩)⟩
    · -- Comment
      subst h35
      simp only [lex_comment, Except.ok.injEq, Option.some.injEq, Prod.mk.injEq] at h
      obtain ⟨rfl, rfl⟩ := h
      refine ⟨rfl, 1 + countWhile (fun c => !(c = 10)) ((35 :: rest).drop 1), ?_, rfl, rfl,
        Or.inr (Or.inl ⟨Or.inr (by simp), rfl, rfl, ?_⟩)⟩
      · have hle := countWhile_le (fun c => !(c = 10)) ((35 :: rest).drop 1)
        simp only [List.drop_succ_cons, List.drop_zero, List.length_cons] at hle ⊢
        omega
      · show off + 1 + (1 + countWhile (fun c => !(c = 10)) ((35 :: rest).drop 1)) =
          off + (1 + countWhile (fun c => !(c = 10)) ((35 :: rest).drop 1)) + 1
        omega
    · -- free Bareword
      simp only [lex_bareword, Except.ok.injEq, Option.some.injEq, Prod.mk.injEq] at h
      obtain ⟨rfl, rfl⟩ := h
      refine ⟨rfl, _, countWhile_le _ _, rfl, rfl,
        Or.inr (Or.inr ⟨?_, ?_, ?_, rfl, rfl, rfl⟩)⟩
      all_goals simp only [ne_eq, List.head?_cons, Option.some.injEq]
      · exact h96
      · exact h36
      · exact h35

theorem map_some_ne_ok_none {e : Except String (Token × Lexer)} :
    e.map some ≠ .ok none := by
  cases e <;> simp [Except.map]

/-- `next` answers the sentinel exactly on the empty remainder. -/
theorem next_eq_none (l : Lexer) (h : next l = .ok none) : l.source = [] := by
  obtain ⟨src, off, flag⟩ := l
  cases src with
  | nil => rfl
  | cons b rest =>
    simp only [next] at h
    split_ifs at h
    all_goals first
      | exact absurd h map_some_ne_ok_none
      | simp at h

/-- Concatenation of the contents of a token list, in order. -/
def joinContents (toks : List Token) : List Nat :=
  (toks.map Token.contents).flatten

/-- The spans of a token list are contiguous starting at `o`. -/
def spansChain : Nat → List Token → Prop
  | _, [] => True
  | o, t :: ts => t.span_start = o ∧ spansChain t.span_end ts

/-- Claim C4 (amended): on sources containing no backtick byte, whenever
repeated produce-next reaches the sentinel, concatenating the contents of
the produced tokens in order reproduces the source bytes exactly (each
backtick-quoted Bareword token instead drops its two delimiters). -/
theorem run_no_backtick_join (fuel : Nat) :
    ∀ (src : List Nat) (off : Nat) (flag : Bool) (toks : List Token) (lf : Lexer),
      (∀ b ∈ src, b ≠ 96) →
      run fuel ⟨src, off, flag⟩ = .done toks lf →
      joinContents toks = src := by
  induction fuel with
  | zero =>
    intro src off flag toks lf hb h
    simp [run] at h
  | succ fuel ih =>
    intro src off flag toks lf hb h
    simp only [run] at h
    cases hn : next ⟨src, off, flag⟩ with
    | error e => rw [hn] at h; simp at h
    | ok o =>
      rw [hn] at h
      cases o with
      | none =>
        simp only [RunResult.done.injEq] at h
        obtain ⟨rfl, rfl⟩ := h
        have hnil := next_eq_none ⟨src, off, flag⟩ hn
        simp only [Lexer.source] at hnil
        subst hnil
        simp [joinContents]
      | some p =>
        obtain ⟨t, l₂⟩ := p
        dsimp only at h
        cases hr : run fuel l₂ with
        | panicked e => rw [hr] at h; simp at h
        | outOfFuel => rw [hr] at h; simp at h
        | done ts lf₂ =>
          rw [hr] at h
          simp only [RunResult.done.injEq] at h
          obtain ⟨rfl, rfl⟩ := h
          obtain ⟨hflag, k, hk, hsrc, hspan, hcase⟩ := next_anatomy src off flag t l₂ hn
          have h96 : src.head? ≠ some 96 := by
            cases src with
            | nil => simp
            | cons a s =>
              simp only [ne_eq, List.head?_cons, Option.some.injEq]
              exact hb a (List.mem_cons_self a s)
          have hcontents : t.contents = src.take k := by
            rcases hcase with ⟨h1, _⟩ | ⟨_, h2, _⟩ | ⟨_, _, _, h3, _⟩
            · exact absurd h1 h96
            · exact h2
            · exact h3
          have hb2 : ∀ c ∈ l₂.source, c ≠ 96 := by
            intro c hc
            apply hb
            rw [hsrc] at hc
            exact List.mem_of_mem_drop hc
          have hjoin := ih l₂.source l₂.span_offset l₂.newline_is_space ts lf₂ hb2 hr
          simp only [joinContents, List.map_cons, List.flatten] at hjoin ⊢
          rw [hsrc] at hjoin
          rw [hcontents, hjoin]
          exact List.take_append_drop k src

/-- Claim C5 (amended): on sources containing no backtick byte, whenever
repeated produce-next reaches the sentinel, the produced spans are
contiguous — the first token starts at the constructor's starting offset
and each token starts where its predecessor ended (a backtick-quoted
Bareword token instead starts one byte after its predecessor's end). -/
theorem run_no_backtick_chain (fuel : Nat) :
    ∀ (src : List Nat) (off : Nat) (flag : Bool) (toks : List Token) (lf : Lexer),
      (∀ b ∈ src, b ≠ 96) →
      run fuel ⟨src, off, flag⟩ = .done toks lf →
      spansChain off toks := by
  induction fuel with
  | zero =>
    intro src off flag toks lf hb h
    simp [run] at h
  | succ fuel ih =>
    intro src off flag toks lf hb h
    simp only [run] at h
    cases hn : next ⟨src, off, flag⟩ with
    | error e => rw [hn] at h; simp at h
    | ok o =>
      rw [hn] at h
      cases o with
      | none =>
        simp only [RunResult.done.injEq] at h
        obtain ⟨rfl, rfl⟩ := h
        exact trivial
      | some p =>
        obtain ⟨t, l₂⟩ := p
        dsimp only at h
        cases hr : run fuel l₂ with
        | panicked e => rw [hr] at h; simp at h
        | outOfFuel => rw [hr] at h; simp at h
        | done ts lf₂ =>
          rw [hr] at h
          simp only [RunResult.done.injEq] at h
          obtain ⟨rfl, rfl⟩ := h
          obtain ⟨hflag, k, hk, hsrc, hspan, hcase⟩ := next_anatomy src off flag t l₂ hn
          have h96 : src.head? ≠ some 96 := by
            cases src with
            | nil => simp
            | cons a s =>
              simp only [ne_eq, List.head?_cons, Option.some.injEq]
              exact hb a (List.mem_cons_self a s)
          have hstart : t.span_start = off := by
            rcases hcase with ⟨h1, _⟩ | ⟨_, _, h2, _⟩ | ⟨_, _, _, _, h3, _⟩
            · exact absurd h1 h96
            · exact h2
            · exact h3
          have hb2 : ∀ c ∈ l₂.source, c ≠ 96 := by
            intro c hc
            apply hb
            rw [hsrc] at hc
            exact List.mem_of_mem_drop hc
          have hchain := ih l₂.source l₂.span_offset l₂.newline_is_space ts lf₂ hb2 hr
          exact ⟨hstart, by rw [hspan]; exact hchain⟩

/-- Claim C1 (code_bug evidence): produce-next is not total.  The byte
`~` (126) is in the symbol set, so the dispatcher routes it to the symbol
scanner, whose match has no arm for it and panics; a remainder holding a
lone backtick (96) panics slicing `source[1..0]` in the quoted-bareword
scanner. -/
theorem next_panics_on_tilde_and_lone_backtick :
    next ⟨[126], 0, false⟩ =
      .error "Internal compiler error: symbol character mismatched in lexer" ∧
    next ⟨[96], 0, false⟩ = .error "slice index starts at 1 but ends at 0" :=
  ⟨rfl, rfl⟩

/-- Claim C2 (counterexample): the Variable scanner violates
`span_end - span_start = contents.length` (span 3 vs 2 content bytes on
`$a`), while the quoted-Bareword scanner satisfies it (`2 - 1 = 1` on
a backtick-quoted `a`), contrary to the claim's exception. -/
theorem span_length_counterexample :
    next ⟨[36, 97], 0, false⟩ =
      .ok (some (⟨TokenType.Variable, [36, 97], 0, 3⟩, ⟨[], 3, false⟩)) ∧
    (3 : Nat) - 0 ≠ ([36, 97] : List Nat).length ∧
    run 2 ⟨[96, 97, 96], 0, false⟩ =
      .done [⟨TokenType.Bareword, [97], 1, 2⟩] ⟨[], 2, false⟩ ∧
    (2 : Nat) - 1 = ([97] : List Nat).length :=
  ⟨rfl, by decide, rfl, by decide⟩

/-- Claim C2 (amended): every token produced by `next` satisfies
`span_end - span_start = contents.length`, except that Variable (head
byte `$` = 36) and Comment (head byte `#` = 35) tokens have a span one
byte longer than their contents; the quoted-Bareword scanner satisfies
the equality. -/
theorem span_length_by_family (src : List Nat) (off : Nat) (flag : Bool)
    (t : Token) (l₂ : Lexer) (h : next ⟨src, off, flag⟩ = .ok (some (t, l₂))) :
    if src.head? = some 36 ∨ src.head? = some 35
    then t.span_end - t.span_start = t.contents.length + 1
    else t.span_end - t.span_start = t.contents.length := by
  obtain ⟨hflag, k, hk, hsrc, hspan, hcase⟩ := next_anatomy src off flag t l₂ h
  split_ifs with hh
  · rcases hcase with ⟨h1, _⟩ | ⟨_, hcont, hstart, hoff⟩ | ⟨_, hne36, hne35, _⟩
    · rcases hh with hh | hh <;> rw [hh] at h1 <;> simp at h1
    · have hlen : t.contents.length = k := by
        rw [hcont, List.length_take]
        exact min_eq_left hk
      rw [hspan, hstart, hoff, hlen]
      omega
    · rcases hh with hh | hh
      · exact absurd hh hne36
      · exact absurd hh hne35
  · push_neg at hh
    obtain ⟨hne36, hne35⟩ := hh
    rcases hcase with ⟨h1, hk2, hcont, hstart, hoff⟩ | ⟨h2, _⟩ | ⟨_, _, _, hcont, hstart, hoff⟩
    · have hlen : t.contents.length = k - 2 := by
        rw [hcont, List.length_take, List.length_drop]
        exact min_eq_left (by omega)
      rw [hspan, hstart, hlen]
      omega
    · rcases h2 with h2 | h2
      · exact absurd h2 hne36
      · exact absurd h2 hne35
    · have hlen : t.contents.length = k := by
        rw [hcont, List.length_take]
        exact min_eq_left hk
      rw [hspan, hstart, hoff, hlen]
      omega

theorem span_length_by_family_witness :
    if ([49] : List Nat).head? = some 36 ∨ ([49] : List Nat).head? = some 35
    then (⟨TokenType.Number, [49], 0, 1⟩ : Token).span_end -
        (⟨TokenType.Number, [49], 0, 1⟩ : Token).span_start =
        (⟨TokenType.Number, [49], 0, 1⟩ : Token).contents.length + 1
    else (⟨TokenType.Number, [49], 0, 1⟩ : Token).span_end -
        (⟨TokenType.Number, [49], 0, 1⟩ : Token).span_start =
        (⟨TokenType.Number, [49], 0, 1⟩ : Token).contents.length :=
  span_length_by_family [49] 0 false ⟨TokenType.Number, [49], 0, 1⟩ ⟨[], 1, false⟩ rfl

/-- Claim C3 (counterexample): one `next` call on `$a` moves the offset
to 3 while consuming only 2 bytes, so `span_offset + remaining.length`
grows from 2 to 3 — it is not constant. -/
theorem cursor_sum_counterexample :
    next ⟨[36, 97], 0, false⟩ =
      .ok (some (⟨TokenType.Variable, [36, 97], 0, 3⟩, ⟨[], 3, false⟩)) ∧
    (3 : Nat) + ([] : List Nat).length ≠ 0 + ([36, 97] : List Nat).length :=
  ⟨rfl, by decide⟩

/-- Claim C3 (amended): across a token-returning `next` call the offset
never decreases and the remainder never grows, but the sum
`span_offset + remaining.length` is only conserved when the head byte is
not a backtick (96, sum shrinks by one), `$` (36) or `#` (35, sum grows
by one). -/
theorem cursor_monotone_and_conservation (src : List Nat) (off : Nat) (flag : Bool)
    (t : Token) (l₂ : Lexer) (h : next ⟨src, off, flag⟩ = .ok (some (t, l₂))) :
    off ≤ l₂.span_offset ∧ l₂.source.length ≤ src.length ∧
    (src.head? ≠ some 96 → src.head? ≠ some 36 → src.head? ≠ some 35 →
      l₂.span_offset + l₂.source.length = off + src.length) := by
  obtain ⟨hflag, k, hk, hsrc, hspan, hcase⟩ := next_anatomy src off flag t l₂ h
  have hlen : l₂.source.length = src.length - k := by
    rw [hsrc, List.length_drop]
  refine ⟨?_, by omega, ?_⟩
  · rcases hcase with ⟨_, hk2, _, _, hoff⟩ | ⟨_, _, _, hoff⟩ | ⟨_, _, _, _, _, hoff⟩ <;> omega
  · intro hne96 hne36 hne35
    rcases hcase with ⟨h1, _⟩ | ⟨h2, _⟩ | ⟨_, _, _, _, _, hoff⟩
    · exact absurd h1 hne96
    · rcases h2 with h2 | h2
      · exact absurd h2 hne36
      · exact absurd h2 hne35
    · omega

theorem cursor_monotone_and_conservation_witness :
    (0 : Nat) ≤ (⟨[], 2, false⟩ : Lexer).span_offset ∧
    (⟨[], 2, false⟩ : Lexer).source.length ≤ ([97, 98] : List Nat).length ∧
    (([97, 98] : List Nat).head? ≠ some 96 → ([97, 98] : List Nat).head? ≠ some 36 →
      ([97, 98] : List Nat).head? ≠ some 35 →
      (⟨[], 2, false⟩ : Lexer).span_offset + (⟨[], 2, false⟩ : Lexer).source.length =
        0 + ([97, 98] : List Nat).length) :=
  cursor_monotone_and_conservation [97, 98] 0 false
    ⟨TokenType.Bareword, [97, 98], 0, 2⟩ ⟨[], 2, false⟩ rfl

/-- Claim C4 (counterexample): lexing the backtick-quoted input
`` `a` `` to the sentinel yields one Bareword token with contents `a`,
so the concatenated contents drop the two delimiters and do not
reproduce the source. -/
theorem lossless_counterexample :
    run 2 ⟨[96, 97, 96], 0, false⟩ =
      .done [⟨TokenType.Bareword, [97], 1, 2⟩] ⟨[], 2, false⟩ ∧
    joinContents [⟨TokenType.Bareword, [97], 1, 2⟩] ≠ [96, 97, 96] :=
  ⟨rfl, by decide⟩

theorem lossless_of_no_backtick_witness :
    joinContents [⟨TokenType.Number, [50], 0, 1⟩] = [50] :=
  run_no_backtick_join 2 [50] 0 false [⟨TokenType.Number, [50], 0, 1⟩]
    ⟨[], 1, false⟩ (by decide) rfl

/-- Claim C5 (counterexample): on the backtick input `` `a` `` the first
produced token has `span_start = 1`, not the starting offset 0. -/
theorem contiguity_counterexample :
    run 2 ⟨[96, 97, 96], 0, false⟩ =
      .done [⟨TokenType.Bareword, [97], 1, 2⟩] ⟨[], 2, false⟩ ∧
    (⟨TokenType.Bareword, [97], 1, 2⟩ : Token).span_start ≠ 0 :=
  ⟨rfl, by decide⟩

theorem run_no_backtick_chain_witness :
    spansChain 0 [⟨TokenType.Number, [49], 0, 1⟩, ⟨TokenType.Plus, [43], 1, 2⟩,
      ⟨TokenType.Number, [50], 2, 3⟩] :=
  run_no_backtick_chain 4 [49, 43, 50] 0 false
    [⟨TokenType.Number, [49], 0, 1⟩, ⟨TokenType.Plus, [43], 1, 2⟩,
      ⟨TokenType.Number, [50], 2, 3⟩] ⟨[], 3, false⟩ (by decide) rfl

/-- Claim C6 (code_bug evidence): lexing `$foo|$bar` from offset 0
produces Variable `$foo`, Pipe `|`, Variable `$bar` as claimed, but with
spans `[0,5)`, `[5,6)`, `[6,11)` — each Variable span is one byte longer
than its contents because the scanner double-counts the `$` byte — not
the claimed `[0,4)`, `[4,5)`, `[5,9)`. -/
theorem variable_scenario_actual_spans :
    run 4 ⟨[36, 102, 111, 111, 124, 36, 98, 97, 114], 0, false⟩ =
      .done [⟨TokenType.Variable, [36, 102, 111, 111], 0, 5⟩,
             ⟨TokenType.Pipe, [124], 5, 6⟩,
             ⟨TokenType.Variable, [36, 98, 97, 114], 6, 11⟩] ⟨[], 11, false⟩ :=
  rfl

/-- Claim C7: preview returns exactly the token produce-next would
return (including propagating the same panic) and leaves the cursor
state unchanged, so any number of previews agree and a subsequent
produce-next yields the identical token. -/
theorem peek_previews_next (l : Lexer) :
    peek l = (next l).map (fun r => (Option.map Prod.fst r, l)) := by
  obtain ⟨src, off, flag⟩ := l
  unfold peek
  cases hn : next ⟨src, off, flag⟩ with
  | error e => simp [Except.map]
  | ok o =>
    cases o with
    | none => simp [Except.map]
    | some p =>
      obtain ⟨t, l₂⟩ := p
      have hflag := (next_anatomy src off flag t l₂ hn).1
      simp [Except.map, hflag]

/-- Claim C8: the 5-byte unterminated input `"a\"b` lexes to a single
String token covering the whole input to EOF, with the backslash
escaping the quote, and no panic. -/
theorem unterminated_escaped_string_scenario :
    run 2 ⟨[34, 97, 92, 34, 98], 0, false⟩ =
      .done [⟨TokenType.String, [34, 97, 92, 34, 98], 0, 5⟩] ⟨[], 5, false⟩ :=
  rfl

/-- The twelve two-character operators of the symbol table, with their
leading byte, second byte and token kind. -/
def twoCharTable : List (Nat × Nat × TokenType) :=
  [(60, 61, TokenType.LessThanEqual), (62, 61, TokenType.GreaterThanEqual),
   (43, 43, TokenType.PlusPlus), (42, 42, TokenType.AsteriskAsterisk),
   (47, 47, TokenType.ForwardSlashForwardSlash), (61, 61, TokenType.EqualsEquals),
   (61, 126, TokenType.EqualsTilde), (33, 61, TokenType.ExclamationEquals),
   (33, 126, TokenType.ExclamationTilde), (124, 124, TokenType.PipePipe),
   (38, 38, TokenType.AmpersandAmpersand), (46, 46, TokenType.DotDot)]

/-- The one-character fallbacks of the bytes that lead two-character
operators. -/
def oneCharTable : List (Nat × TokenType) :=
  [(60, TokenType.LessThan), (62, TokenType.GreaterThan), (43, TokenType.Plus),
   (42, TokenType.Asterisk), (47, TokenType.ForwardSlash), (61, TokenType.Equals),
   (33, TokenType.Exclamation), (124, TokenType.Pipe), (38, TokenType.Ampersand),
   (46, TokenType.Dot)]

/-- Claim C9: maximal munch in the symbol scanner — for each table pair,
an input beginning with both bytes yields the single two-byte token, and
when the lookahead matches no second byte for the leading byte the
single one-byte token results; in particular `&&` gives one
AmpersandAmpersand token spanning `[0,2)` and `&x` starts with one
Ampersand token spanning `[0,1)`. -/
theorem symbol_maximal_munch :
    (∀ a b tt r off flag, (a, b, tt) ∈ twoCharTable →
      lex_symbol ⟨a :: b :: r, off, flag⟩ =
        .ok (⟨tt, [a, b], off, off + 2⟩, ⟨r, off + 2, flag⟩)) ∧
    (∀ a tt r off flag, (a, tt) ∈ oneCharTable →
      (∀ b tt2, (a, b, tt2) ∈ twoCharTable → r.head? ≠ some b) →
      lex_symbol ⟨a :: r, off, flag⟩ =
        .ok (⟨tt, [a], off, off + 1⟩, ⟨r, off + 1, flag⟩)) ∧
    next ⟨[38, 38], 0, false⟩ =
      .ok (some (⟨TokenType.AmpersandAmpersand, [38, 38], 0, 2⟩, ⟨[], 2, false⟩)) ∧
    next ⟨[38, 120], 0, false⟩ =
      .ok (some (⟨TokenType.Ampersand, [38], 0, 1⟩, ⟨[120], 1, false⟩)) := by
  refine ⟨?_, ?_, rfl, rfl⟩
  · intro a b tt r off flag hmem
    fin_cases hmem <;>
      simp [lex_symbol, symbol_token, symbol_kind, Nat.add_sub_cancel_left]
  · intro a tt r off flag hmem hr
    fin_cases hmem
    · have h1 := hr 61 TokenType.LessThanEqual (by decide)
      simp [lex_symbol, symbol_token, symbol_kind, h1, Nat.add_sub_cancel_left]
    · have h1 := hr 61 TokenType.GreaterThanEqual (by decide)
      simp [lex_symbol, symbol_token, symbol_kind, h1, Nat.add_sub_cancel_left]
    · have h1 := hr 43 TokenType.PlusPlus (by decide)
      simp [lex_symbol, symbol_token, symbol_kind, h1, Nat.add_sub_cancel_left]
    · have h1 := hr 42 TokenType.AsteriskAsterisk (by decide)
      simp [lex_symbol, symbol_token, symbol_kind, h1, Nat.add_sub_cancel_left]
    · have h1 := hr 47 TokenType.ForwardSlashForwardSlash (by decide)
      simp [lex_symbol, symbol_token, symbol_kind, h1, Nat.add_sub_cancel_left]
    · have h1 := hr 61 TokenType.EqualsEquals (by decide)
      have h2 := hr 126 TokenType.EqualsTilde (by decide)
      simp [lex_symbol, symbol_token, symbol_kind, h1, h2, Nat.add_sub_cancel_left]
    · have h1 := hr 61 TokenType.ExclamationEquals (by decide)
      have h2 := hr 126 TokenType.ExclamationTilde (by decide)
      simp [lex_symbol, symbol_token, symbol_kind, h1, h2, Nat.add_sub_cancel_left]
    · have h1 := hr 124 TokenType.PipePipe (by decide)
      simp [lex_symbol, symbol_token, symbol_kind, h1, Nat.add_sub_cancel_left]
    · have h1 := hr 38 TokenType.AmpersandAmpersand (by decide)
      simp [lex_symbol, symbol_token, symbol_kind, h1, Nat.add_sub_cancel_left]
    · have h1 := hr 46 TokenType.DotDot (by decide)
      simp [lex_symbol, symbol_token, symbol_kind, h1, Nat.add_sub_cancel_left]

theorem symbol_maximal_munch_witness :
    lex_symbol ⟨[60, 61], 7, true⟩ =
      .ok (⟨TokenType.LessThanEqual, [60, 61], 7, 9⟩, ⟨[], 9, true⟩) ∧
    lex_symbol ⟨[61, 120], 3, false⟩ =
      .ok (⟨TokenType.Equals, [61], 3, 4⟩, ⟨[120], 4, false⟩) :=
  ⟨symbol_maximal_munch.1 60 61 TokenType.LessThanEqual [] 7 true (by decide),
   symbol_maximal_munch.2.1 61 TokenType.Equals [120] 3 false (by decide)
     (by
       intro b tt2 hmem
       simp [twoCharTable, Prod.mk.injEq] at hmem
       rcases hmem with ⟨rfl, rfl⟩ | ⟨rfl, rfl⟩ <;> decide)⟩

/-- Claim C10 (code_bug evidence): on a remainder beginning with the
form-feed byte 12 the dispatcher falls through to the bareword scanner,
which stops immediately on the ASCII-whitespace byte: `next` returns an
empty Bareword token and an unchanged state, so the remainder never
shrinks and the sentinel is never reached. -/
theorem formfeed_bareword_no_progress :
    next ⟨[12], 0, false⟩ =
      .ok (some (⟨TokenType.Bareword, [], 0, 0⟩, ⟨[12], 0, false⟩)) :=
  rfl
